import Mathlib

/-!
# Verification of the learning-resolution-coach core agent

Shallow embedding of the adaptive decision & planning engine of the
learning-resolution-coach backend (`apps/backend/core-agent` plus the shared
database models), with theorems about its scoring, status classification,
adaptation policy, plan versioning, memory-rule reinforcement, and task
completion behaviour.

Modelling conventions:
* The SQL store is a `DB` structure holding each table as a `List` of rows in
  insertion order, plus autoincrement counters; a `query(...).first()` is
  `List.find?`, a `count()` is `List.length` after `List.filter`, and the
  in-place ORM mutation of the row returned by `first()` is `updateFirst`.
* Python `float` values are modelled as exact rationals `ℚ`; `round(x, 2)` is
  `round2`, using round-half-to-even like Python's `round`.
* Calendar dates are integers counting days from an epoch that falls on a
  Monday, so Python's `d.weekday()` is `d % 7` and
  `d - timedelta(days=d.weekday())` is `d - d % 7`.
* Calls to external collaborators (the LLM provider, the RAG worker) are
  modelled as explicit parameters: `none` for an LLM response models the
  exception path, which the source answers with its deterministic fallback.
-/

namespace Coach

/-! ## Rounding (Python `round`) -/

/-- Python's built-in `round` to 0 places: nearest integer, ties to even. -/
def roundHalfEven (x : ℚ) : ℤ :=
  if Int.fract x < 1/2 then ⌊x⌋
  else if 1/2 < Int.fract x then ⌊x⌋ + 1
  else if 2 ∣ ⌊x⌋ then ⌊x⌋ else ⌊x⌋ + 1

/-- Python's `round(x, 2)`. -/
def round2 (x : ℚ) : ℚ := (roundHalfEven (100 * x) : ℚ) / 100

/-! ## Enumerations (`shared/db/models.py`) -/

inductive LearningStyle
  | reading | coding | mixed
deriving DecidableEq, BEq

inductive TaskStatus
  | pending | in_progress | completed | skipped
deriving DecidableEq, BEq

inductive TaskType
  | reading | coding | review | quiz
deriving DecidableEq, BEq

/-- `TaskType(s)`: the enum constructor, `none` when `s` is not a member
(the source's `ValueError` path). -/
def TaskType.ofString? (s : String) : Option TaskType :=
  if s = "reading" then some .reading
  else if s = "coding" then some .coding
  else if s = "review" then some .review
  else if s = "quiz" then some .quiz
  else none

/-! ## Table rows (`shared/db/models.py`) -/

structure Commitment where
  id : ℕ
  user_id : ℕ
  goal : String
  target_date : ℤ
  weekly_hours : ℤ
  background : Option String := none
  baseline_level : Option String := none
  learning_style : LearningStyle := .mixed
  is_active : Bool := true
  created_at : ℤ := 0
deriving DecidableEq

/-- One task entry of the JSON plan payload produced by the content generator;
fields are optional because the source reads them with `dict.get` defaults. -/
structure TaskData where
  task : Option String := none
  timebox_min : Option ℤ := none
  ttype : Option String := none
  day : Option ℤ := none
deriving DecidableEq

/-- The structured `plan_json` payload of a `Plan`. -/
structure PlanJson where
  week_focus : Option String := none
  tasks : List TaskData := []
  micro_project : Option String := none
  review_topics : List String := []
deriving DecidableEq

structure Plan where
  id : ℕ
  user_id : ℕ
  week_start : ℤ
  version : ℕ := 1
  plan_json : PlanJson
  is_active : Bool := true
  created_at : ℤ := 0
deriving DecidableEq

structure DailyTask where
  id : ℕ
  plan_id : ℕ
  date : ℤ
  task : String
  timebox_min : ℤ
  task_type : TaskType := .reading
  status : TaskStatus := .pending
  started_at : Option ℤ := none
  completed_at : Option ℤ := none
deriving DecidableEq

structure Checkin where
  id : ℕ
  user_id : ℕ
  date : ℤ
  yesterday : Option String := none
  today : Option String := none
  blockers : Option String := none
  next_task : Option String := none
  fallback_task : Option String := none
  advice : Option String := none
deriving DecidableEq

structure Quiz where
  id : ℕ
  user_id : ℕ
  week : ℤ := 1
  topic : String := ""
  score : Option ℚ := none
  completed : Bool := false
  created_at : ℤ := 0
deriving DecidableEq

structure MemoryRule where
  id : ℕ
  user_id : ℕ
  rule_type : String
  rule_value : String
  confidence : ℚ := 1
  is_active : Bool := true
deriving DecidableEq

structure PremortermRisk where
  id : ℕ
  commitment_id : ℕ
  risk : String
  mitigation : String
  priority : ℤ := 1
deriving DecidableEq

/-- The database: one list per table, in row-insertion order, plus the
autoincrement counters for primary keys. -/
structure DB where
  commitments : List Commitment := []
  plans : List Plan := []
  tasks : List DailyTask := []
  checkins : List Checkin := []
  quizzes : List Quiz := []
  rules : List MemoryRule := []
  risks : List PremortermRisk := []
  nextCommitmentId : ℕ := 1
  nextPlanId : ℕ := 1
  nextTaskId : ℕ := 1
  nextCheckinId : ℕ := 1
  nextRuleId : ℕ := 1
  nextRiskId : ℕ := 1
deriving DecidableEq

/-- Mutation of the single row returned by `query(...).first()`: rewrite the
first element satisfying `p` with `f`, leave everything else untouched. -/
def updateFirst (p : α → Bool) (f : α → α) : List α → List α
  | [] => []
  | x :: xs => if p x then f x :: xs else x :: updateFirst p f xs

/-- Python truthiness of an `Optional[str]`: `None` and `""` are falsy. -/
def pyTruthy (s : Option String) : Bool := !(s.getD "" == "")

/-! ## Outbound decision contract (`shared/schemas/agent_decision.py`) -/

structure Signals where
  adherence : ℚ
  knowledge : ℚ
  retention : ℚ
  status : String
deriving DecidableEq

/-- A `next_tasks` entry of an `AgentDecision` (task, timebox, type). -/
structure NextTaskOut where
  task : String
  timebox_min : ℤ
  ttype : String
deriving DecidableEq

/-- The outbound decision payload; the `action` dict is flattened into its two
keys `plan_adjustment` and `risk_mitigation`. Citations returned by the RAG
worker are kept opaque as strings. -/
structure AgentDecision where
  reason : String
  advice : Option String := none
  signals : Signals
  plan_adjustment : String
  risk_mitigation : List String
  next_tasks : List NextTaskOut
  resources_used : List String := []
  quality_score : ℚ := 1
  quality_flags : List String := []
deriving DecidableEq

/-- The fixed "no active commitment" recovery decision that intake-requiring
commands substitute when the user has no active `Commitment`
(`checkin_service.py` lines 92-101, `plan_service.py` lines 93-102). -/
def noCommitmentDecision : AgentDecision :=
  { reason := "No active commitment found. Please complete intake first."
    signals := { adherence := 0, knowledge := 0, retention := 0, status := "at_risk" }
    plan_adjustment := "keep"
    risk_mitigation := []
    next_tasks := [{ task := "Complete intake assessment", timebox_min := 10, ttype := "review" }]
    resources_used := []
    quality_score := 1
    quality_flags := ["no_commitment"] }

/-! ## Scoring service (`app/services/scoring_service.py`) -/

/-- `db.query(Plan).filter(user_id, is_active).first()`. -/
def activePlan (db : DB) (user_id : ℕ) : Option Plan :=
  db.plans.find? (fun p => p.user_id == user_id && p.is_active)

/-- `db.query(Commitment).filter(user_id, is_active).first()`. -/
def activeCommitment (db : DB) (user_id : ℕ) : Option Commitment :=
  db.commitments.find? (fun c => c.user_id == user_id && c.is_active)

/-- Count of the plan's `DailyTask` rows with `since <= date <= today`. -/
def totalTasksInWindow (db : DB) (plan_id : ℕ) (today days : ℤ) : ℕ :=
  (db.tasks.filter (fun t =>
    t.plan_id == plan_id && (today - days ≤ t.date : Bool) && (t.date ≤ today : Bool))).length

/-- Count of the plan's completed `DailyTask` rows with `since <= date <= today`. -/
def completedTasksInWindow (db : DB) (plan_id : ℕ) (today days : ℤ) : ℕ :=
  (db.tasks.filter (fun t =>
    t.plan_id == plan_id && (today - days ≤ t.date : Bool) && (t.date ≤ today : Bool)
      && t.status == TaskStatus.completed)).length

/-- `ScoringService.calculate_adherence(user_id, days=7)`. -/
def calculate_adherence (db : DB) (user_id : ℕ) (today : ℤ) (days : ℤ := 7) : ℚ :=
  match activePlan db user_id with
  | none => 0
  | some plan =>
    let total := totalTasksInWindow db plan.id today days
    let completed := completedTasksInWindow db plan.id today days
    if total = 0 then 1
    else round2 ((completed : ℚ) / (total : ℚ))

/-- Insert a quiz into a list sorted by `created_at` descending (stable). -/
def insertByCreatedDesc (q : Quiz) : List Quiz → List Quiz
  | [] => [q]
  | x :: xs =>
    if x.created_at ≤ q.created_at then q :: x :: xs else x :: insertByCreatedDesc q xs

/-- `order_by(Quiz.created_at.desc())`. -/
def sortByCreatedDesc : List Quiz → List Quiz
  | [] => []
  | x :: xs => insertByCreatedDesc x (sortByCreatedDesc xs)

/-- `ScoringService.calculate_knowledge(user_id)`.

NOTE, faithful to the source: the third filter clause in the source is the
Python expression `Quiz.score is not None`, an identity test on the column
object itself. It evaluates to the constant `True` before the query runs, so
it imposes no row constraint whatsoever — only `user_id` and
`completed == True` filter rows, and a completed quiz whose `score` is null is
included and contributes `0` to the sum via `q.score or 0`. -/
def calculate_knowledge (db : DB) (user_id : ℕ) : ℚ :=
  let quizzes :=
    (sortByCreatedDesc (db.quizzes.filter (fun q => q.user_id == user_id && q.completed))).take 5
  if quizzes.isEmpty then 0
  else round2 ((quizzes.map (fun q => q.score.getD 0)).sum / (quizzes.length : ℚ))

/-- Modelled from the spec: "Knowledge: mean of the `score` field across the 5
most recently created completed Quizzes; 0.0 if none exist. Quizzes without a
score must be excluded." — i.e. null-score quizzes are excluded from both the
numerator and the count. -/
def calculate_knowledge_spec (db : DB) (user_id : ℕ) : ℚ :=
  let quizzes :=
    (sortByCreatedDesc (db.quizzes.filter (fun q =>
      q.user_id == user_id && q.completed && q.score.isSome))).take 5
  if quizzes.isEmpty then 0
  else round2 ((quizzes.map (fun q => q.score.getD 0)).sum / (quizzes.length : ℚ))

/-- `db.query(Checkin).filter(user_id, date >= today - 3).count()`. -/
def countRecentCheckins (db : DB) (user_id : ℕ) (today : ℤ) : ℕ :=
  (db.checkins.filter (fun c => c.user_id == user_id && (today - 3 ≤ c.date : Bool))).length

/-- The branch structure of `ScoringService.get_user_status` as a function of
the two quantities it branches on. -/
def statusLogic (adherence : ℚ) (recent_checkins : ℕ) : String :=
  if adherence < 3/10 ∨ recent_checkins = 0 then "at_risk"
  else if adherence < 6/10 then "recovering"
  else "active"

/-- `ScoringService.get_user_status(user_id)`. -/
def get_user_status (db : DB) (user_id : ℕ) (today : ℤ) : String :=
  statusLogic (calculate_adherence db user_id today 7) (countRecentCheckins db user_id today)

/-! ## Adaptation policy (`app/domain/decision_engine.py`) -/

def LOW_ADHERENCE_THRESHOLD : ℚ := 3/10
def MEDIUM_ADHERENCE_THRESHOLD : ℚ := 6/10
def LOW_KNOWLEDGE_THRESHOLD : ℚ := 4/10
def LOW_RETENTION_THRESHOLD : ℚ := 5/10

/-- `AdaptationPolicy.determine_adjustment(adherence, knowledge, retention)`. -/
def determine_adjustment (adherence knowledge retention : ℚ) : String :=
  if adherence < LOW_ADHERENCE_THRESHOLD then "reduce_scope"
  else if retention < LOW_RETENTION_THRESHOLD then "repeat_concepts"
  else if knowledge > 8/10 ∧ adherence > 8/10 then "increase_challenge"
  else "keep"

/-! ## Plan service (`app/services/plan_service.py`) -/

/-- `PlanService._get_week_start(d)`: the Monday on/before `d`
(`d - timedelta(days=d.weekday())`; with a Monday epoch, `weekday d = d % 7`). -/
def get_week_start (d : ℤ) : ℤ := d - d % 7

/-- `PlanService._default_plan(commitment)`: the deterministic fallback plan
used when the content generator fails. -/
def default_plan (commitment : Commitment) : PlanJson :=
  { week_focus := some ("Getting started with " ++ commitment.goal)
    tasks :=
      [ { task := some "Review fundamentals", timebox_min := some 45,
          ttype := some "reading", day := some 1 }
      , { task := some "Practice exercise 1", timebox_min := some 30,
          ttype := some "coding", day := some 2 }
      , { task := some "Continue learning", timebox_min := some 45,
          ttype := some "reading", day := some 3 }
      , { task := some "Practice exercise 2", timebox_min := some 30,
          ttype := some "coding", day := some 4 }
      , { task := some "Weekly review", timebox_min := some 20,
          ttype := some "review", day := some 5 } ]
    micro_project := none
    review_topics := [] }

/-- `PlanService._plan_to_decision(plan, commitment)`. -/
def plan_to_decision (plan : Plan) : AgentDecision :=
  let week_focus := plan.plan_json.week_focus.getD "Learning week"
  let tasks := plan.plan_json.tasks
  { reason := "Week " ++ toString plan.version ++ ": " ++ week_focus
    signals := { adherence := 1, knowledge := 0, retention := 0, status := "active" }
    plan_adjustment := "keep"
    risk_mitigation := []
    next_tasks := (tasks.take 3).map (fun t =>
      { task := t.task.getD "", timebox_min := t.timebox_min.getD 45,
        ttype := t.ttype.getD "reading" })
    resources_used := []
    quality_score := 1
    quality_flags := [] }

/-- `PlanService._create_daily_tasks(plan, tasks)`: materialize one `DailyTask`
row per task entry, with consecutive autoincrement ids starting at `nextId`. -/
def create_daily_tasks (plan_id nextId : ℕ) (week_start : ℤ) :
    List TaskData → List DailyTask
  | [] => []
  | td :: rest =>
    let day := td.day.getD 1
    { id := nextId
      plan_id := plan_id
      date := week_start + max 0 (day - 1)
      task := td.task.getD ""
      timebox_min := td.timebox_min.getD 45
      task_type := (TaskType.ofString? (td.ttype.getD "reading")).getD .reading
      status := .pending } :: create_daily_tasks plan_id (nextId + 1) week_start rest

/-- The filter of the `existing_plan` query in `generate_weekly_plan`:
same user, exactly this `week_start`, and active. -/
def samePlanWeek (user_id : ℕ) (week_start : ℤ) (p : Plan) : Bool :=
  p.user_id == user_id && p.week_start == week_start && p.is_active

/-- The write phase of `generate_weekly_plan` after the idempotent-read check:
persist the new active `Plan` (over the given post-deactivation plan table)
and materialize its daily tasks. -/
def persistNewPlan (db : DB) (user_id : ℕ) (week_start : ℤ) (new_version : ℕ)
    (plans1 : List Plan) (llm_response : PlanJson) : AgentDecision × DB :=
  let plan : Plan :=
    { id := db.nextPlanId, user_id := user_id, week_start := week_start,
      version := new_version, plan_json := llm_response, is_active := true }
  let newTasks := create_daily_tasks plan.id db.nextTaskId week_start llm_response.tasks
  (plan_to_decision plan,
   { db with plans := plans1 ++ [plan],
             tasks := db.tasks ++ newTasks,
             nextPlanId := db.nextPlanId + 1,
             nextTaskId := db.nextTaskId + newTasks.length })

/-- `PlanService.generate_weekly_plan(user_id, force_regenerate)`.

`llm = some r` models a successful content-generator call returning `r`;
`llm = none` models the exception path, answered with `default_plan`.
The prompt construction, risk/memory-rule gathering and week counters feed
only the prompt sent to the generator and are not modelled. -/
def generate_weekly_plan (db : DB) (user_id : ℕ) (force_regenerate : Bool)
    (today : ℤ) (llm : Option PlanJson) : AgentDecision × DB :=
  match activeCommitment db user_id with
  | none => (noCommitmentDecision, db)
  | some commitment =>
    let week_start := get_week_start today
    match db.plans.find? (samePlanWeek user_id week_start) with
    | some existing_plan =>
      if force_regenerate then
        -- deactivate the existing same-week plan, bump its version
        persistNewPlan db user_id week_start (existing_plan.version + 1)
          (updateFirst (samePlanWeek user_id week_start)
            (fun p => { p with is_active := false }) db.plans)
          (llm.getD (default_plan commitment))
      else
        (plan_to_decision existing_plan, db)
    | none =>
      persistNewPlan db user_id week_start 1 db.plans
        (llm.getD (default_plan commitment))

/-- `PlanService.get_today_tasks(user_id)`. -/
def get_today_tasks (db : DB) (user_id : ℕ) (today : ℤ) : List DailyTask :=
  match activePlan db user_id with
  | none => []
  | some plan => db.tasks.filter (fun t => t.plan_id == plan.id && t.date == today)

/-! ## Check-in service (`app/services/checkin_service.py`) -/

/-- The structured check-in LLM response; optional fields mirror `dict.get`. -/
structure CheckinLLM where
  assessment : Option String := none
  next_task : Option String := none
  next_task_timebox : Option ℤ := none
  fallback_task : Option String := none
  blocker_advice : Option String := none
  motivation_note : Option String := none
deriving DecidableEq

/-- The deterministic fallback check-in response used when the LLM call fails. -/
def checkinFallbackLLM (blockers : Option String) : CheckinLLM :=
  { assessment := some "Check-in received"
    next_task := some "Continue with your planned learning"
    next_task_timebox := some 45
    fallback_task := some "Review yesterday's concepts for 15 minutes"
    blocker_advice :=
      if pyTruthy blockers then some "Try breaking the problem into smaller steps" else none
    motivation_note := some "Keep up the momentum!" }

/-- `CheckinService._add_or_update_rule(user_id, rule_type, rule_value)`.

Faithful to the source: the lookup filters on `user_id` and `rule_type` only
(it does NOT filter on `is_active`); a found rule gets
`confidence = min(1.0, confidence + 0.1)` with `rule_value` untouched, and
otherwise a fresh rule is inserted with confidence `0.5` (and the model
default `is_active = True`). -/
def add_or_update_rule (db : DB) (user_id : ℕ) (rule_type rule_value : String) : DB :=
  match db.rules.find? (fun r => r.user_id == user_id && r.rule_type == rule_type) with
  | some _ =>
    let reinforced :=
      updateFirst (fun r => r.user_id == user_id && r.rule_type == rule_type)
        (fun r => { r with confidence := min 1 (r.confidence + 1/10) }) db.rules
    { db with rules := reinforced }
  | none =>
    { db with
        rules := db.rules ++
          [{ id := db.nextRuleId, user_id := user_id, rule_type := rule_type,
             rule_value := rule_value, confidence := 1/2, is_active := true }]
        nextRuleId := db.nextRuleId + 1 }

/-- U+0027, built without an apostrophe character in the source text. -/
def apostrophe : Char := Char.ofNat 39

/-- The literal second entry of the skip-phrase list in the source. -/
def didntDoAnything : String := "didn" ++ String.singleton apostrophe ++ "t do anything"

/-- `s1 in s2` for Python strings: substring containment, expressed via
`splitOn` (a string contains `pat` iff splitting on `pat` yields ≥ 2 parts). -/
def strContains (s pat : String) : Bool := (s.splitOn pat).length ≥ 2

/-- `CheckinService._update_memory_rules(user_id, yesterday, blockers)`;
`||`/`&&` mirror Python's short-circuiting `or`/`and`. -/
def update_memory_rules (db : DB) (user_id : ℕ)
    (yesterday blockers : Option String) : DB :=
  let db1 :=
    if (!pyTruthy yesterday) ||
        ((yesterday.getD "").toLower ∈ ["nothing", didntDoAnything, "skipped"] : Bool) then
      add_or_update_rule db user_id "task_skip" "User skipped learning session"
    else db
  if pyTruthy blockers && strContains ((blockers.getD "").toLower) "time" then
    add_or_update_rule db1 user_id "time_constraint"
      "User frequently has time constraints - prefer shorter tasks"
  else db1

/-- `CheckinService.process_checkin(user_id, yesterday, today, blockers)`.

The LLM call is the parameter `llm` (`none` = exception path → deterministic
fallback); the RAG worker's citations are the parameter `ragCitations`
(consulted only when a blocker is present). `todayDate` is `date.today()`. -/
def process_checkin (db : DB) (user_id : ℕ)
    (yesterday today blockers : Option String)
    (llm : Option CheckinLLM) (ragCitations : List String)
    (todayDate : ℤ) : AgentDecision × DB :=
  match activeCommitment db user_id with
  | none => (noCommitmentDecision, db)
  | some _commitment =>
    let rag_resources := if pyTruthy blockers then ragCitations else []
    let llm_response := llm.getD (checkinFallbackLLM blockers)
    let advice_text :=
      if pyTruthy llm_response.blocker_advice then llm_response.blocker_advice
      else llm_response.motivation_note
    let checkin : Checkin :=
      { id := db.nextCheckinId, user_id := user_id, date := todayDate,
        yesterday := yesterday, today := today, blockers := blockers,
        next_task := llm_response.next_task,
        fallback_task := llm_response.fallback_task,
        advice := advice_text }
    let db1 := { db with checkins := db.checkins ++ [checkin],
                         nextCheckinId := db.nextCheckinId + 1 }
    let db2 := update_memory_rules db1 user_id yesterday blockers
    let adherence : ℚ :=
      if pyTruthy yesterday && ((yesterday.getD "").length > 10 : Bool) then 8/10 else 5/10
    let next_tasks :=
      [{ task := llm_response.next_task.getD "Continue learning",
         timebox_min := llm_response.next_task_timebox.getD 45,
         ttype := "reading" }] ++
      (if pyTruthy llm_response.fallback_task then
        [{ task := "[Fallback] " ++ llm_response.fallback_task.getD "",
           timebox_min := 20, ttype := "review" }]
       else [])
    ({ reason := llm_response.assessment.getD "Check-in processed"
       advice := advice_text
       signals :=
         { adherence := adherence, knowledge := 1/2, retention := 1/2,
           status := if !pyTruthy blockers then "active" else "at_risk" }
       plan_adjustment := "keep"
       risk_mitigation := if pyTruthy blockers then ["address_blocker"] else []
       next_tasks := next_tasks
       resources_used := rag_resources
       quality_score := 1
       quality_flags := [] }, db2)

/-! ## Intake and premortem state effects
(`app/services/intake_service.py`, `app/services/premortem_service.py`) -/

/-- The state effect of `IntakeService.create_commitment`: deactivate every
active commitment of the user (a bulk `update`), then insert the new one. -/
def create_commitment_state (db : DB) (user_id : ℕ) (goal : String)
    (target_date weekly_hours : ℤ) (background baseline_level : Option String)
    (learning_style : String) (todayDate : ℤ) : DB :=
  let style :=
    if learning_style = "reading" then LearningStyle.reading
    else if learning_style = "coding" then LearningStyle.coding
    else if learning_style = "mixed" then LearningStyle.mixed
    else LearningStyle.mixed
  { db with
      commitments :=
        (db.commitments.map (fun c =>
          if c.user_id == user_id && c.is_active then { c with is_active := false } else c))
        ++ [{ id := db.nextCommitmentId, user_id := user_id, goal := goal,
              target_date := target_date, weekly_hours := weekly_hours,
              background := background, baseline_level := baseline_level,
              learning_style := style, is_active := true, created_at := todayDate }]
      nextCommitmentId := db.nextCommitmentId + 1 }

/-- A risk entry of the premortem LLM response. -/
structure RiskData where
  risk : Option String := none
  mitigation : Option String := none
  priority : Option ℤ := none
deriving DecidableEq

/-- The fallback risk list built from the failure reasons when the premortem
LLM call fails: priorities `1..` over the first 5 reasons. -/
def fallbackRisks (failure_reasons : List String) : List RiskData :=
  ((failure_reasons.take 5).enum).map (fun p =>
    { risk := some p.2, mitigation := some "Create accountability checkpoint",
      priority := some ((p.1 : ℤ) + 1) })

/-- Insert `PremortermRisk` rows for a commitment with consecutive ids. -/
def insertRisks (commitment_id nextId : ℕ) : List RiskData → List PremortermRisk
  | [] => []
  | rd :: rest =>
    { id := nextId, commitment_id := commitment_id,
      risk := rd.risk.getD "", mitigation := rd.mitigation.getD "",
      priority := rd.priority.getD 5 } :: insertRisks commitment_id (nextId + 1) rest

/-- The state effect of `PremortermService.process_premortem`: when an active
commitment exists, delete all its risks and insert the new list
(the LLM risks or the deterministic fallback). -/
def process_premortem_state (db : DB) (user_id : ℕ) (failure_reasons : List String)
    (llm : Option (List RiskData)) : DB :=
  match activeCommitment db user_id with
  | none => db
  | some commitment =>
    let risks := llm.getD (fallbackRisks failure_reasons)
    let newRows := insertRisks commitment.id db.nextRiskId risks
    { db with
        risks := (db.risks.filter (fun r => !(r.commitment_id == commitment.id))) ++ newRows
        nextRiskId := db.nextRiskId + newRows.length }

/-! ## Task completion route (`app/api/v1/routes.py`, `complete_task`) -/

structure HTTPError where
  status_code : ℕ
  detail : String
deriving DecidableEq

structure CompleteAck where
  message : String
  task_id : ℕ
deriving DecidableEq

/-- `PUT /tasks/{task_id}/complete`. The handler resolves `user_id` from the
request header dependency but never uses it: the task is looked up by id only,
unconditionally marked completed, and `completed_at` stamped with the current
time; a missing id raises `HTTPException(404, "Task not found")`. -/
def complete_task (db : DB) (task_id user_id : ℕ) (now : ℤ) :
    Except HTTPError (CompleteAck × DB) :=
  match db.tasks.find? (fun t => t.id == task_id) with
  | none => .error { status_code := 404, detail := "Task not found" }
  | some _task =>
    let stamped :=
      updateFirst (fun t => t.id == task_id)
        (fun t => { t with status := .completed, completed_at := some now }) db.tasks
    .ok ({ message := "Task completed", task_id := task_id }, { db with tasks := stamped })

/-! ## Derived state helpers and concrete fixtures -/

/-- The active plans a given user has for a given week: the rows a
`query(Plan).filter(user_id, week_start, is_active)` would return. -/
def activeFor (user_id : ℕ) (week_start : ℤ) (plans : List Plan) : List Plan :=
  plans.filter (samePlanWeek user_id week_start)

/-- `n` successive reinforcements of the same `(user_id, rule_type)` rule. -/
def reinforceNTimes (db : DB) (user_id : ℕ) (rule_type rule_value : String) : ℕ → DB
  | 0 => db
  | n + 1 =>
    add_or_update_rule (reinforceNTimes db user_id rule_type rule_value n)
      user_id rule_type rule_value

/-- An arbitrary sequence of `_add_or_update_rule` calls, each with its own
`(user_id, rule_type, rule_value)` arguments. -/
def applyRuleCalls (db : DB) : List (ℕ × String × String) → DB
  | [] => db
  | c :: cs => applyRuleCalls (add_or_update_rule db c.1 c.2.1 c.2.2) cs

/-- Fixture for C1: user 1 has an active commitment and an active plan for the
week starting at day 0; a plan request arrives the following week (day 7). -/
def c1DB : DB :=
  { commitments := [{ id := 1, user_id := 1, goal := "learn", target_date := 70,
                      weekly_hours := 10 }]
    plans := [{ id := 1, user_id := 1, week_start := 0, version := 1, plan_json := {} }]
    nextCommitmentId := 2, nextPlanId := 2 }

/-- Fixture for C2: user 1 has two completed quizzes, the most recent one with
a null score and an older one scoring 0.8. -/
def c2DB : DB :=
  { quizzes :=
      [ { id := 1, user_id := 1, score := some (4/5), completed := true, created_at := 1 }
      , { id := 2, user_id := 1, score := none, completed := true, created_at := 2 } ]
    nextCheckinId := 1 }

/-- Fixture for C7: user 1 already has one active `task_skip` rule at
confidence 0.5. -/
def c7DB : DB :=
  { rules := [{ id := 1, user_id := 1, rule_type := "task_skip",
                rule_value := "User skipped learning session", confidence := 1/2 }]
    nextRuleId := 2 }

/-- Fixture for C8: user 1 has an active commitment and an active plan for the
current week (week start 0). -/
def c8DB : DB :=
  { commitments := [{ id := 1, user_id := 1, goal := "learn", target_date := 28,
                      weekly_hours := 10 }]
    plans := [{ id := 1, user_id := 1, week_start := 0, version := 1, plan_json := {} }]
    nextCommitmentId := 2, nextPlanId := 2 }

/-- C9 scenario, step 1: a commitment is created for user 1. -/
def c9Step1 : DB := create_commitment_state {} 1 "Learn Rust" 70 10 none none "mixed" 0

/-- C9 scenario, step 2: a premortem with 2 failure reasons is submitted
(content generator fails, so the deterministic fallback mitigations apply). -/
def c9Step2 : DB := process_premortem_state c9Step1 1 ["not enough time", "losing focus"] none

/-- C9 scenario, step 3 input: the content generator returns one task tagged
`day = 10`, which the source does not clamp from above. -/
def c9LLM : PlanJson :=
  { week_focus := some "Week one"
    tasks := [{ task := some "Read chapter 1", timebox_min := some 45,
                ttype := some "reading", day := some 10 }] }

/-- C9 scenario result: the store after the weekly plan request. -/
def c9Final : DB := (generate_weekly_plan c9Step2 1 false 0 (some c9LLM)).2

/-- The single task entry used in the C9 witness: unknown type string "go",
day 3. -/
def c9WitnessEntry : TaskData :=
  { task := some "T", timebox_min := some 45, ttype := some "go", day := some 3 }

/-- The DailyTask materialized from `c9WitnessEntry` at week start 0. -/
def c9WitnessTask : DailyTask :=
  { id := 1, plan_id := 1, date := 2, task := "T", timebox_min := 45,
    task_type := .reading, status := .pending }

/-- Fixture for C10: a plan owned by user 1 with a single already-completed
task (id 5, completed at time 3). -/
def c10DB : DB :=
  { plans := [{ id := 1, user_id := 1, week_start := 0, plan_json := {} }]
    tasks := [{ id := 5, plan_id := 1, date := 0, task := "Read", timebox_min := 45,
                status := .completed, completed_at := some 3 }]
    nextPlanId := 2, nextTaskId := 6 }

/-! ## General lemmas about rounding -/

theorem floor_le_roundHalfEven (x : ℚ) : ⌊x⌋ ≤ roundHalfEven x := by
  unfold roundHalfEven; split_ifs <;> omega

theorem roundHalfEven_le_floor_add_one (x : ℚ) : roundHalfEven x ≤ ⌊x⌋ + 1 := by
  unfold roundHalfEven; split_ifs <;> omega

theorem roundHalfEven_mono {x y : ℚ} (h : x ≤ y) :
    roundHalfEven x ≤ roundHalfEven y := by
  rcases lt_or_eq_of_le (Int.floor_le_floor h) with hf | hf
  · calc roundHalfEven x ≤ ⌊x⌋ + 1 := roundHalfEven_le_floor_add_one x
    _ ≤ ⌊y⌋ := by omega
    _ ≤ roundHalfEven y := floor_le_roundHalfEven y
  · have hfr : Int.fract x ≤ Int.fract y := by
      simp only [Int.fract]; rw [hf]; linarith
    rcases lt_trichotomy (Int.fract x) (1/2 : ℚ) with hx | hx | hx
    · have hxv : roundHalfEven x = ⌊x⌋ := by
        unfold roundHalfEven; rw [if_pos hx]
      rw [hxv, hf]; exact floor_le_roundHalfEven y
    · rcases lt_or_eq_of_le hfr with hlt | he
      · have hyv : roundHalfEven y = ⌊y⌋ + 1 := by
          unfold roundHalfEven
          rw [if_neg (by linarith), if_pos (by linarith)]
        rw [hyv, ← hf]
        exact roundHalfEven_le_floor_add_one x
      · have hxv : roundHalfEven x = if 2 ∣ ⌊x⌋ then ⌊x⌋ else ⌊x⌋ + 1 := by
          unfold roundHalfEven; rw [if_neg (by linarith), if_neg (by linarith)]
        have hyv : roundHalfEven y = if 2 ∣ ⌊y⌋ then ⌊y⌋ else ⌊y⌋ + 1 := by
          unfold roundHalfEven
          rw [if_neg (by rw [← he]; linarith), if_neg (by rw [← he]; linarith)]
        rw [hxv, hyv, hf]
    · have hxv : roundHalfEven x = ⌊x⌋ + 1 := by
        unfold roundHalfEven
        rw [if_neg (by linarith), if_pos (by linarith)]
      have hyv : roundHalfEven y = ⌊y⌋ + 1 := by
        unfold roundHalfEven
        rw [if_neg (by linarith), if_pos (by linarith)]
      rw [hxv, hyv, hf]

theorem round2_mono {x y : ℚ} (h : x ≤ y) : round2 x ≤ round2 y := by
  unfold round2
  apply div_le_div_of_nonneg_right ?_ (by norm_num)
  · exact_mod_cast roundHalfEven_mono (by linarith)

/-! ## General lemmas about `updateFirst`, `find?` and `filter` -/

theorem updateFirst_cons_pos {α : Type} {p : α → Bool} {f : α → α} {x : α}
    {xs : List α} (h : p x = true) : updateFirst p f (x :: xs) = f x :: xs := by
  simp [updateFirst, h]

theorem updateFirst_cons_neg {α : Type} {p : α → Bool} {f : α → α} {x : α}
    {xs : List α} (h : p x = false) :
    updateFirst p f (x :: xs) = x :: updateFirst p f xs := by
  simp [updateFirst, h]

/-- Decomposition of a list around the row found by `find?`, together with the
effect of `updateFirst` with the same predicate: exactly that row is rewritten. -/
theorem find?_updateFirst_decomp {α : Type} {p : α → Bool} (f : α → α)
    {l : List α} {a : α} (h : l.find? p = some a) :
    ∃ l1 l2, l = l1 ++ a :: l2 ∧ (∀ x ∈ l1, p x = false) ∧
      updateFirst p f l = l1 ++ f a :: l2 := by
  induction l with
  | nil => simp at h
  | cons x xs ih =>
    by_cases hx : p x
    · rw [List.find?_cons_of_pos _ hx] at h
      obtain rfl : x = a := by injection h
      exact ⟨[], xs, rfl, by intro y hy; simp at hy, by rw [updateFirst_cons_pos hx]; rfl⟩
    · have hx' : p x = false := by simpa using hx
      rw [List.find?_cons_of_neg _ hx] at h
      obtain ⟨l1, l2, hl, hfal, hupd⟩ := ih h
      refine ⟨x :: l1, l2, by rw [List.cons_append, ← hl], ?_, ?_⟩
      · intro y hy
        rcases List.mem_cons.mp hy with rfl | hy
        · exact hx'
        · exact hfal y hy
      · rw [updateFirst_cons_neg hx', hupd]; rfl

/-- A row not matching the predicate survives `updateFirst` untouched. -/
theorem mem_updateFirst_of_pred_false {α : Type} {p : α → Bool} {f : α → α}
    {l : List α} {a : α} (ha : a ∈ l) (hpa : p a = false) :
    a ∈ updateFirst p f l := by
  induction l with
  | nil => simp at ha
  | cons x xs ih =>
    by_cases hx : p x
    · rw [updateFirst_cons_pos hx]
      rcases List.mem_cons.mp ha with rfl | ha
      · simp [hpa] at hx
      · exact List.mem_cons_of_mem _ ha
    · have hx' : p x = false := by simpa using hx
      rw [updateFirst_cons_neg hx']
      rcases List.mem_cons.mp ha with rfl | ha
      · exact List.mem_cons_self _ _
      · exact List.mem_cons_of_mem _ (ih ha)

/-- Every row of `updateFirst p f l` is either an original row or the image
under `f` of an original row. -/
theorem mem_updateFirst {α : Type} {p : α → Bool} {f : α → α} {l : List α}
    {x : α} (hx : x ∈ updateFirst p f l) : x ∈ l ∨ ∃ y ∈ l, x = f y := by
  induction l with
  | nil => simp [updateFirst] at hx
  | cons z zs ih =>
    by_cases hz : p z
    · rw [updateFirst_cons_pos hz] at hx
      rcases List.mem_cons.mp hx with rfl | hx
      · exact Or.inr ⟨z, List.mem_cons_self _ _, rfl⟩
      · exact Or.inl (List.mem_cons_of_mem _ hx)
    · have hz' : p z = false := by simpa using hz
      rw [updateFirst_cons_neg hz'] at hx
      rcases List.mem_cons.mp hx with rfl | hx
      · exact Or.inl (List.mem_cons_self _ _)
      · rcases ih hx with h | ⟨y, hy, hxy⟩
        · exact Or.inl (List.mem_cons_of_mem _ h)
        · exact Or.inr ⟨y, List.mem_cons_of_mem _ hy, hxy⟩

/-- If `find?` finds nothing then `filter` keeps nothing. -/
theorem filter_eq_nil_of_find?_eq_none {α : Type} {p : α → Bool} {l : List α}
    (h : l.find? p = none) : l.filter p = [] := by
  rw [List.filter_eq_nil]
  intro a ha
  exact (List.find?_eq_none.mp h) a ha

/-- If the filter keeps exactly one row, `find?` returns it. -/
theorem find?_eq_some_of_filter_singleton {α : Type} {p : α → Bool} {l : List α}
    {a : α} (h : l.filter p = [a]) : l.find? p = some a := by
  induction l with
  | nil => simp at h
  | cons x xs ih =>
    by_cases hx : p x
    · rw [List.filter_cons_of_pos hx] at h
      injection h with h1 h2
      subst h1
      exact List.find?_cons_of_pos _ hx
    · have hx' : p x = false := by simpa using hx
      rw [List.filter_cons_of_neg hx] at h
      rw [List.find?_cons_of_neg _ hx]
      exact ih h

/-- If `find?` returns a row and the filter keeps at most one row, the filter
keeps exactly that row. -/
theorem filter_singleton_of_find? {α : Type} {p : α → Bool} {l : List α}
    {a : α} (h : l.find? p = some a) (hlen : (l.filter p).length ≤ 1) :
    l.filter p = [a] := by
  induction l with
  | nil => simp at h
  | cons x xs ih =>
    by_cases hx : p x
    · rw [List.find?_cons_of_pos _ hx] at h
      obtain rfl : x = a := by injection h
      rw [List.filter_cons_of_pos hx] at hlen ⊢
      have : xs.filter p = [] := by
        cases hfl : xs.filter p with
        | nil => rfl
        | cons b bs => rw [hfl] at hlen; simp at hlen
      rw [this]
    · rw [List.find?_cons_of_neg _ hx] at h
      rw [List.filter_cons_of_neg hx] at hlen ⊢
      exact ih h hlen

/-- Deactivating the unique row matched by `q` empties the `q`-filter. -/
theorem filter_updateFirst_eq_nil {α : Type} {q : α → Bool} {f : α → α}
    {l : List α} {a : α} (h : l.find? q = some a)
    (hlen : (l.filter q).length ≤ 1) (hf : q (f a) = false) :
    (updateFirst q f l).filter q = [] := by
  induction l with
  | nil => simp at h
  | cons x xs ih =>
    by_cases hx : q x
    · rw [List.find?_cons_of_pos _ hx] at h
      obtain rfl : x = a := by injection h
      rw [updateFirst_cons_pos hx, List.filter_cons_of_neg (by simp [hf])]
      rw [List.filter_cons_of_pos hx] at hlen
      cases hfl : xs.filter q with
      | nil => rfl
      | cons b bs => rw [hfl] at hlen; simp at hlen
    · have hx' : q x = false := by simpa using hx
      rw [List.find?_cons_of_neg _ hx] at h
      rw [List.filter_cons_of_neg hx] at hlen
      rw [updateFirst_cons_neg hx', List.filter_cons_of_neg hx]
      exact ih h hlen

/-- `updateFirst` with predicate `q` does not change the `r`-filter when every
`q`-row fails `r` both before and after the rewrite. -/
theorem filter_updateFirst_of_other {α : Type} {q r : α → Bool} {f : α → α}
    (hdis : ∀ x, q x = true → r x = false ∧ r (f x) = false) :
    ∀ l : List α, (updateFirst q f l).filter r = l.filter r := by
  intro l
  induction l with
  | nil => rfl
  | cons x xs ih =>
    by_cases hx : q x
    · obtain ⟨hrx, hrfx⟩ := hdis x hx
      rw [updateFirst_cons_pos hx, List.filter_cons_of_neg (by simp [hrfx]),
        List.filter_cons_of_neg (by simp [hrx])]
    · have hx' : q x = false := by simpa using hx
      rw [updateFirst_cons_neg hx']
      by_cases hr : r x
      · rw [List.filter_cons_of_pos hr, List.filter_cons_of_pos hr, ih]
      · rw [List.filter_cons_of_neg hr, List.filter_cons_of_neg hr, ih]

/-! ## C5 — adaptation policy rule table -/

/-- C5: `determine_adjustment` is a pure total function of the three scores
that evaluates the rule table in exact priority order: `adherence < 0.3` gives
`reduce_scope`, else `retention < 0.5` gives `repeat_concepts`, else
`knowledge > 0.8 ∧ adherence > 0.8` gives `increase_challenge`, else `keep`;
in particular `determine(0.2, 0.5, 0.3) = reduce_scope`,
`determine(0.9, 0.85, 0.8) = increase_challenge`,
`determine(0.7, 0.6, 0.6) = keep`, and
`determine(0.7, 0.5, 0.3) = repeat_concepts`. -/
theorem C5_determine_adjustment_rule_table :
    (∀ a k r : ℚ, a < 3/10 → determine_adjustment a k r = "reduce_scope") ∧
    (∀ a k r : ℚ, ¬ a < 3/10 → r < 1/2 →
      determine_adjustment a k r = "repeat_concepts") ∧
    (∀ a k r : ℚ, ¬ a < 3/10 → ¬ r < 1/2 → k > 8/10 → a > 8/10 →
      determine_adjustment a k r = "increase_challenge") ∧
    (∀ a k r : ℚ, ¬ a < 3/10 → ¬ r < 1/2 → ¬ (k > 8/10 ∧ a > 8/10) →
      determine_adjustment a k r = "keep") ∧
    determine_adjustment (2/10) (5/10) (3/10) = "reduce_scope" ∧
    determine_adjustment (9/10) (85/100) (8/10) = "increase_challenge" ∧
    determine_adjustment (7/10) (6/10) (6/10) = "keep" ∧
    determine_adjustment (7/10) (5/10) (3/10) = "repeat_concepts" := by
  refine ⟨?_, ?_, ?_, ?_, ?_, ?_, ?_, ?_⟩
  · intro a k r h
    unfold determine_adjustment LOW_ADHERENCE_THRESHOLD
    rw [if_pos h]
  · intro a k r h1 h2
    unfold determine_adjustment LOW_ADHERENCE_THRESHOLD LOW_RETENTION_THRESHOLD
    rw [if_neg h1, if_pos (by linarith : r < 5/10)]
  · intro a k r h1 h2 h3 h4
    unfold determine_adjustment LOW_ADHERENCE_THRESHOLD LOW_RETENTION_THRESHOLD
    rw [if_neg h1, if_neg (by intro hc; exact h2 (by linarith)), if_pos ⟨h3, h4⟩]
  · intro a k r h1 h2 h3
    unfold determine_adjustment LOW_ADHERENCE_THRESHOLD LOW_RETENTION_THRESHOLD
    rw [if_neg h1, if_neg (by intro hc; exact h2 (by linarith)), if_neg h3]
  · norm_num [determine_adjustment, LOW_ADHERENCE_THRESHOLD, LOW_RETENTION_THRESHOLD]
  · norm_num [determine_adjustment, LOW_ADHERENCE_THRESHOLD, LOW_RETENTION_THRESHOLD]
  · norm_num [determine_adjustment, LOW_ADHERENCE_THRESHOLD, LOW_RETENTION_THRESHOLD]
  · norm_num [determine_adjustment, LOW_ADHERENCE_THRESHOLD, LOW_RETENTION_THRESHOLD]

/-- Witness for C5 at a concrete input. -/
theorem C5_determine_adjustment_rule_table_witness :
    determine_adjustment (1/10) (1/2) (1/2) = "reduce_scope" :=
  C5_determine_adjustment_rule_table.1 (1/10) (1/2) (1/2) (by norm_num)

/-! ## C6 — status classification is total with at_risk priority -/

/-- C6: `get_user_status` factors through `statusLogic` over the pair
(adherence, recent check-in count); every such pair maps to exactly one of
`active`, `at_risk`, `recovering`; `at_risk` whenever the recent check-in
count is 0 regardless of adherence, else `at_risk` when adherence < 0.3, else
`recovering` when adherence < 0.6, else `active`. -/
theorem C6_get_user_status_total :
    (∀ (db : DB) (u : ℕ) (today : ℤ), get_user_status db u today =
      statusLogic (calculate_adherence db u today 7) (countRecentCheckins db u today)) ∧
    (∀ (a : ℚ) (rc : ℕ),
      statusLogic a rc = "at_risk" ∨ statusLogic a rc = "recovering" ∨
        statusLogic a rc = "active") ∧
    (∀ a : ℚ, statusLogic a 0 = "at_risk") ∧
    (∀ (a : ℚ) (rc : ℕ), rc ≠ 0 → a < 3/10 → statusLogic a rc = "at_risk") ∧
    (∀ (a : ℚ) (rc : ℕ), rc ≠ 0 → ¬ a < 3/10 → a < 6/10 →
      statusLogic a rc = "recovering") ∧
    (∀ (a : ℚ) (rc : ℕ), rc ≠ 0 → ¬ a < 3/10 → ¬ a < 6/10 →
      statusLogic a rc = "active") := by
  refine ⟨fun db u today => rfl, ?_, ?_, ?_, ?_, ?_⟩
  · intro a rc
    unfold statusLogic
    split_ifs <;> simp
  · intro a
    unfold statusLogic
    rw [if_pos (Or.inr rfl)]
  · intro a rc hrc ha
    unfold statusLogic
    rw [if_pos (Or.inl ha)]
  · intro a rc hrc ha hb
    unfold statusLogic
    rw [if_neg (by rintro (h | h) <;> [exact ha h; exact hrc h]), if_pos hb]
  · intro a rc hrc ha hb
    unfold statusLogic
    rw [if_neg (by rintro (h | h) <;> [exact ha h; exact hrc h]), if_neg hb]

/-- Witness for C6 at concrete inputs: no check-ins beats high adherence. -/
theorem C6_get_user_status_total_witness :
    statusLogic (9/10) 2 = "active" ∧ statusLogic 1 0 = "at_risk" :=
  ⟨C6_get_user_status_total.2.2.2.2.2 (9/10) 2 (by norm_num) (by norm_num) (by norm_num),
   C6_get_user_status_total.2.2.1 1⟩

/-! ## C4 — adherence computation -/

/-- C4: `calculate_adherence` returns 0 when the user has no active Plan;
otherwise, over the active Plan's DailyTasks dated within the trailing window
up to and including today, it returns exactly 1 when the total count is 0 and
`round(completed/total, 2)` when the total is positive, and that value is
monotonically non-decreasing in the completed count for a fixed total. -/
theorem C4_calculate_adherence :
    (∀ (db : DB) (u : ℕ) (today days : ℤ), activePlan db u = none →
      calculate_adherence db u today days = 0) ∧
    (∀ (db : DB) (u : ℕ) (today days : ℤ) (p : Plan), activePlan db u = some p →
      totalTasksInWindow db p.id today days = 0 →
      calculate_adherence db u today days = 1) ∧
    (∀ (db : DB) (u : ℕ) (today days : ℤ) (p : Plan), activePlan db u = some p →
      0 < totalTasksInWindow db p.id today days →
      calculate_adherence db u today days =
        round2 ((completedTasksInWindow db p.id today days : ℚ) /
          (totalTasksInWindow db p.id today days : ℚ))) ∧
    (∀ c₁ c₂ t : ℕ, c₁ ≤ c₂ →
      round2 ((c₁ : ℚ) / (t : ℚ)) ≤ round2 ((c₂ : ℚ) / (t : ℚ))) := by
  refine ⟨?_, ?_, ?_, ?_⟩
  · intro db u today days h
    unfold calculate_adherence
    rw [h]
  · intro db u today days p hp ht
    unfold calculate_adherence
    rw [hp]
    simp [ht]
  · intro db u today days p hp ht
    unfold calculate_adherence
    rw [hp]
    simp only [if_neg (Nat.pos_iff_ne_zero.mp ht)]
  · intro c₁ c₂ t h
    rcases Nat.eq_zero_or_pos t with ht | ht
    · subst ht; simp
    · exact round2_mono (by
        apply div_le_div_of_nonneg_right ?_ ?_
        · exact_mod_cast h
        · exact_mod_cast ht.le)

/-- Witness for C4: the empty store has no active plan, adherence 0; and
monotonicity at 1 ≤ 2 of 2. -/
theorem C4_calculate_adherence_witness :
    calculate_adherence {} 1 0 7 = 0 ∧
    round2 ((1 : ℚ) / (2 : ℚ)) ≤ round2 ((2 : ℚ) / (2 : ℚ)) :=
  ⟨C4_calculate_adherence.1 {} 1 0 7 rfl,
   C4_calculate_adherence.2.2.2 1 2 2 (by norm_num)⟩

/-! ## C2 — knowledge score: the null-score filter is a no-op in the source -/

/-- C2: evaluation of `calculate_knowledge` at a store where user 1 has two
completed quizzes, the most recent with a null score and the older scoring
0.8. The source (whose `Quiz.score is not None` filter clause is a Python
identity test on the column object, hence constant `True` and a no-op)
averages over BOTH quizzes, counting the null score as 0, and returns 0.4;
the spec-modelled computation excludes the null-score quiz from numerator and
count and returns 0.8. -/
theorem C2_knowledge_null_score_divergence :
    calculate_knowledge c2DB 1 = 2/5 ∧
    calculate_knowledge_spec c2DB 1 = 4/5 ∧
    calculate_knowledge c2DB 1 ≠ calculate_knowledge_spec c2DB 1 := by
  refine ⟨?_, ?_, ?_⟩
  · norm_num [calculate_knowledge, c2DB, sortByCreatedDesc, insertByCreatedDesc,
      List.filter, round2, roundHalfEven, Int.fract]
  · norm_num [calculate_knowledge_spec, c2DB, sortByCreatedDesc, insertByCreatedDesc,
      List.filter, round2, roundHalfEven, Int.fract]
  · norm_num [calculate_knowledge, calculate_knowledge_spec, c2DB,
      sortByCreatedDesc, insertByCreatedDesc, List.filter, round2, roundHalfEven,
      Int.fract]

/-! ## C3 — NotFound recovery: check-in recovers, complete-task does not -/

/-- C3 counterexample: `complete_task` on a store with no tasks does NOT
substitute a recovery result — it surfaces the hard failure
`HTTPException(404, "Task not found")`. -/
theorem C3_complete_task_notfound_404 :
    complete_task {} 42 1 0 =
      Except.error { status_code := 404, detail := "Task not found" } := rfl

/-- C3 amended: commands that require an active Commitment (daily-checkin,
weekly-plan) recover a missing Commitment locally with the fixed
no-commitment decision — adherence, knowledge and retention all 0, status
`at_risk`, and a single "Complete intake assessment" task — and leave the
store untouched; but `complete-task` on a nonexistent taskId is NOT
recovered: it surfaces a 404 "Task not found" error. -/
theorem C3_notfound_recovery_amended :
    (∀ (db : DB) (u : ℕ) (y t b : Option String) (llm : Option CheckinLLM)
        (rag : List String) (today : ℤ), activeCommitment db u = none →
      (process_checkin db u y t b llm rag today).1 = noCommitmentDecision ∧
      (process_checkin db u y t b llm rag today).2 = db) ∧
    (∀ (db : DB) (u : ℕ) (force : Bool) (today : ℤ) (llm : Option PlanJson),
      activeCommitment db u = none →
      (generate_weekly_plan db u force today llm).1 = noCommitmentDecision ∧
      (generate_weekly_plan db u force today llm).2 = db) ∧
    noCommitmentDecision.signals.adherence = 0 ∧
    noCommitmentDecision.signals.knowledge = 0 ∧
    noCommitmentDecision.signals.retention = 0 ∧
    noCommitmentDecision.signals.status = "at_risk" ∧
    noCommitmentDecision.next_tasks =
      [{ task := "Complete intake assessment", timebox_min := 10, ttype := "review" }] ∧
    (∀ (db : DB) (task_id u : ℕ) (now : ℤ),
      db.tasks.find? (fun t => t.id == task_id) = none →
      complete_task db task_id u now =
        Except.error { status_code := 404, detail := "Task not found" }) := by
  refine ⟨?_, ?_, rfl, rfl, rfl, rfl, rfl, ?_⟩
  · intro db u y t b llm rag today h
    unfold process_checkin
    rw [h]
    exact ⟨rfl, rfl⟩
  · intro db u force today llm h
    unfold generate_weekly_plan
    rw [h]
    exact ⟨rfl, rfl⟩
  · intro db task_id u now h
    unfold complete_task
    rw [h]

/-- Witness for C3 at the empty store: a brand-new user's check-in yields the
no-commitment decision and no state change; a missing task id yields the 404. -/
theorem C3_notfound_recovery_amended_witness :
    ((process_checkin {} 1 none none none none [] 0).1 = noCommitmentDecision ∧
     (process_checkin {} 1 none none none none [] 0).2 = {}) ∧
    complete_task {} 7 1 0 =
      Except.error { status_code := 404, detail := "Task not found" } :=
  ⟨C3_notfound_recovery_amended.1 {} 1 none none none none [] 0 rfl,
   C3_notfound_recovery_amended.2.2.2.2.2.2.2 {} 7 1 0 rfl⟩

/-! ## C8 — force-less weekly plan request is idempotent within the week -/

/-- C8: when an active Plan already exists for the week-start computed from
today (the Monday on/before), `generate_weekly_plan` with `force = false`
returns that plan's decision and leaves the store byte-for-byte unchanged —
no new Plan or DailyTask rows, no deactivation — so a second force-less call
in the same week (with any generator output) returns the same decision, hence
the same version, again. -/
theorem C8_weekly_plan_idempotent :
    ∀ (db : DB) (u : ℕ) (today : ℤ) (llm llm₂ : Option PlanJson)
      (c : Commitment) (p : Plan),
      activeCommitment db u = some c →
      db.plans.find? (samePlanWeek u (get_week_start today)) = some p →
      (generate_weekly_plan db u false today llm).1 = plan_to_decision p ∧
      (generate_weekly_plan db u false today llm).2 = db ∧
      (generate_weekly_plan (generate_weekly_plan db u false today llm).2
          u false today llm₂).1
        = (generate_weekly_plan db u false today llm).1 := by
  intro db u today llm llm₂ c p hc hp
  have h1 : generate_weekly_plan db u false today llm = (plan_to_decision p, db) := by
    simp only [generate_weekly_plan, hc, hp, Bool.false_eq_true, if_false]
  have h2 : generate_weekly_plan db u false today llm₂ = (plan_to_decision p, db) := by
    simp only [generate_weekly_plan, hc, hp, Bool.false_eq_true, if_false]
  exact ⟨by rw [h1], by rw [h1], by rw [h1, h2]⟩

/-- Witness for C8 on a concrete store: user 1 already has an active version-1
plan for the current week; two force-less requests return its decision twice
and do not change the store. -/
theorem C8_weekly_plan_idempotent_witness :
    (generate_weekly_plan c8DB 1 false 0 none).1 =
      plan_to_decision { id := 1, user_id := 1, week_start := 0, version := 1,
                         plan_json := {} } ∧
    (generate_weekly_plan c8DB 1 false 0 none).2 = c8DB ∧
    (generate_weekly_plan (generate_weekly_plan c8DB 1 false 0 none).2
        1 false 0 (some {})).1
      = (generate_weekly_plan c8DB 1 false 0 none).1 :=
  C8_weekly_plan_idempotent c8DB 1 0 none (some {})
    { id := 1, user_id := 1, goal := "learn", target_date := 28, weekly_hours := 10 }
    { id := 1, user_id := 1, week_start := 0, version := 1, plan_json := {} }
    rfl rfl

/-! ## C1 — plan activity: helper lemmas on the regeneration branches -/

theorem samePlanWeek_eq_false_of_ne_week {u : ℕ} {ws : ℤ} {p : Plan}
    (h : p.week_start ≠ ws) : samePlanWeek u ws p = false := by
  simp [samePlanWeek, h]

theorem samePlanWeek_deactivated (u : ℕ) (ws : ℤ) (p : Plan) :
    samePlanWeek u ws { p with is_active := false } = false := by
  simp [samePlanWeek]

theorem samePlanWeek_other {u u' : ℕ} {ws w' : ℤ} (hne : ¬(u' = u ∧ w' = ws))
    {x : Plan} (hx : samePlanWeek u ws x = true) :
    samePlanWeek u' w' x = false ∧
      samePlanWeek u' w' { x with is_active := false } = false := by
  simp only [samePlanWeek, Bool.and_eq_true, beq_iff_eq] at hx
  obtain ⟨⟨hxu, hxw⟩, -⟩ := hx
  constructor
  · simp only [samePlanWeek, Bool.and_eq_false_iff]
    by_cases hu : u' = u
    · left; right
      subst hu hxu hxw
      simp only [beq_eq_false_iff_ne, ne_eq]
      intro hw
      exact hne ⟨rfl, hw.symm⟩
    · left; left
      subst hxu
      simp only [beq_eq_false_iff_ne, ne_eq]
      intro h
      exact hu h.symm
  · simp [samePlanWeek]

/-- `generate_weekly_plan` never touches the commitments table. -/
theorem gen_commitments (db : DB) (u : ℕ) (force : Bool) (today : ℤ)
    (llm : Option PlanJson) :
    (generate_weekly_plan db u force today llm).2.commitments = db.commitments := by
  unfold generate_weekly_plan
  cases hc : activeCommitment db u with
  | none => rfl
  | some c =>
    dsimp only
    cases hp : db.plans.find? (samePlanWeek u (get_week_start today)) with
    | some p => cases force <;> rfl
    | none => rfl

/-- The plans table after a forced regeneration over an existing same-week
active plan: that plan deactivated, plus the new version appended. -/
theorem gen_plans_force_existing {db : DB} {u : ℕ} {today : ℤ}
    {llm : Option PlanJson} {c : Commitment} {p : Plan}
    (hc : activeCommitment db u = some c)
    (hp : db.plans.find? (samePlanWeek u (get_week_start today)) = some p) :
    (generate_weekly_plan db u true today llm).2.plans =
      updateFirst (samePlanWeek u (get_week_start today))
        (fun q => { q with is_active := false }) db.plans ++
      [{ id := db.nextPlanId, user_id := u, week_start := get_week_start today,
         version := p.version + 1, plan_json := llm.getD (default_plan c),
         is_active := true }] := by
  simp only [generate_weekly_plan, hc, hp, persistNewPlan, if_true]

/-- The plans table after plan generation in a week with no active plan:
everything untouched, plus the new version-1 plan appended. -/
theorem gen_plans_fresh {db : DB} {u : ℕ} {today : ℤ} {force : Bool}
    {llm : Option PlanJson} {c : Commitment}
    (hc : activeCommitment db u = some c)
    (hp : db.plans.find? (samePlanWeek u (get_week_start today)) = none) :
    (generate_weekly_plan db u force today llm).2.plans =
      db.plans ++
      [{ id := db.nextPlanId, user_id := u, week_start := get_week_start today,
         version := 1, plan_json := llm.getD (default_plan c),
         is_active := true }] := by
  simp only [generate_weekly_plan, hc, hp, persistNewPlan]

/-- One forced regeneration step: afterwards exactly one plan of the target
(user, week) is active — the freshly inserted one — whose version is the
predecessor's plus one (or 1 if the week had no active plan). -/
theorem force_step {db : DB} {u : ℕ} {today : ℤ} {llm : Option PlanJson}
    {c : Commitment} (hc : activeCommitment db u = some c)
    (hlen : (activeFor u (get_week_start today) db.plans).length ≤ 1) :
    ∃ P, activeFor u (get_week_start today)
        (generate_weekly_plan db u true today llm).2.plans = [P] ∧
      P.is_active = true ∧ P.user_id = u ∧
      P.week_start = get_week_start today ∧ P.id = db.nextPlanId ∧
      P.plan_json = llm.getD (default_plan c) ∧
      (∀ p, db.plans.find? (samePlanWeek u (get_week_start today)) = some p →
        P.version = p.version + 1) ∧
      (db.plans.find? (samePlanWeek u (get_week_start today)) = none →
        P.version = 1) := by
  cases hp : db.plans.find? (samePlanWeek u (get_week_start today)) with
  | some p =>
    refine ⟨{ id := db.nextPlanId, user_id := u, week_start := get_week_start today,
              version := p.version + 1, plan_json := llm.getD (default_plan c),
              is_active := true }, ?_, rfl, rfl, rfl, rfl, rfl, ?_, ?_⟩
    · unfold activeFor
      rw [gen_plans_force_existing hc hp, List.filter_append,
        filter_updateFirst_eq_nil hp hlen (samePlanWeek_deactivated u _ p),
        List.filter_cons_of_pos (by simp [samePlanWeek])]
      rfl
    · intro p' hp'
      injection hp' with h
      rw [← h]
    · intro hnone
      exact absurd hnone (by simp)
  | none =>
    refine ⟨{ id := db.nextPlanId, user_id := u, week_start := get_week_start today,
              version := 1, plan_json := llm.getD (default_plan c),
              is_active := true }, ?_, rfl, rfl, rfl, rfl, rfl, ?_, ?_⟩
    · unfold activeFor
      rw [gen_plans_fresh hc hp, List.filter_append,
        filter_eq_nil_of_find?_eq_none hp,
        List.filter_cons_of_pos (by simp [samePlanWeek])]
      rfl
    · intro p' hp'
      exact absurd hp'.symm (by simp)
    · intro _
      rfl

/-! ## C1 — plan activity is per (user, week-start), not global per user -/

/-- C1 counterexample: user 1 has an active plan for the week starting day 0;
a plan request in the following week (today = 7, week-start 7) does NOT
deactivate it — the `existing_plan` query filters on the new week-start — so
afterwards the user has TWO active plans, refuting "at most one Plan with
is_active = true per user at any time, regardless of week". -/
theorem C1_cross_week_counterexample :
    ((generate_weekly_plan c1DB 1 false 7 (some {})).2.plans.map
        (fun p => (p.week_start, p.is_active))) = [(0, true), (7, true)] ∧
    ((generate_weekly_plan c1DB 1 false 7 (some {})).2.plans.filter
        (fun p => p.user_id == 1 && p.is_active)).length = 2 :=
  ⟨rfl, rfl⟩

/-- C1 amended: `generate_weekly_plan` deactivates only the previously active
Plan with the SAME week-start; an active Plan with a different week-start
survives untouched, so activity is per (user, week-start), not global per
user. Per (user, week-start) the at-most-one-active invariant is preserved by
every request, and calling with force=true twice in the same week yields
versions N then N+1 with exactly one Plan of that week-start active at the
end. -/
theorem C1_plan_activity_per_week :
    (∀ (db : DB) (u : ℕ) (force : Bool) (today : ℤ) (llm : Option PlanJson)
        (p : Plan), p ∈ db.plans → p.week_start ≠ get_week_start today →
      p ∈ (generate_weekly_plan db u force today llm).2.plans) ∧
    (∀ (db : DB) (u : ℕ) (force : Bool) (today : ℤ) (llm : Option PlanJson),
      (∀ (u' : ℕ) (w' : ℤ), (activeFor u' w' db.plans).length ≤ 1) →
      ∀ (u' : ℕ) (w' : ℤ),
        (activeFor u' w'
          (generate_weekly_plan db u force today llm).2.plans).length ≤ 1) ∧
    (∀ (db : DB) (u : ℕ) (today : ℤ) (llm llm₂ : Option PlanJson)
        (c : Commitment), activeCommitment db u = some c →
      (∀ (u' : ℕ) (w' : ℤ), (activeFor u' w' db.plans).length ≤ 1) →
      ∃ P1 P2,
        activeFor u (get_week_start today)
          (generate_weekly_plan db u true today llm).2.plans = [P1] ∧
        activeFor u (get_week_start today)
          (generate_weekly_plan (generate_weekly_plan db u true today llm).2
            u true today llm₂).2.plans = [P2] ∧
        P2.version = P1.version + 1) := by
  refine ⟨?_, ?_, ?_⟩
  · intro db u force today llm p hp hne
    have hfalse : samePlanWeek u (get_week_start today) p = false :=
      samePlanWeek_eq_false_of_ne_week hne
    cases hc : activeCommitment db u with
    | none =>
      have : (generate_weekly_plan db u force today llm).2 = db := by
        simp only [generate_weekly_plan, hc]
      rw [this]; exact hp
    | some c =>
      cases hfind : db.plans.find? (samePlanWeek u (get_week_start today)) with
      | some p0 =>
        cases force with
        | false =>
          have : (generate_weekly_plan db u false today llm).2 = db := by
            simp only [generate_weekly_plan, hc, hfind, Bool.false_eq_true, if_false]
          rw [this]; exact hp
        | true =>
          rw [gen_plans_force_existing hc hfind]
          exact List.mem_append_left _ (mem_updateFirst_of_pred_false hp hfalse)
      | none =>
        rw [gen_plans_fresh hc hfind]
        exact List.mem_append_left _ hp
  · intro db u force today llm hinv u' w'
    cases hc : activeCommitment db u with
    | none =>
      have : (generate_weekly_plan db u force today llm).2 = db := by
        simp only [generate_weekly_plan, hc]
      rw [this]; exact hinv u' w'
    | some c =>
      cases hfind : db.plans.find? (samePlanWeek u (get_week_start today)) with
      | some p0 =>
        cases force with
        | false =>
          have : (generate_weekly_plan db u false today llm).2 = db := by
            simp only [generate_weekly_plan, hc, hfind, Bool.false_eq_true, if_false]
          rw [this]; exact hinv u' w'
        | true =>
          unfold activeFor
          rw [gen_plans_force_existing hc hfind, List.filter_append]
          by_cases hsame : u' = u ∧ w' = get_week_start today
          · rw [hsame.1, hsame.2]
            rw [filter_updateFirst_eq_nil hfind (hinv u (get_week_start today))
                (samePlanWeek_deactivated u _ p0),
              List.filter_cons_of_pos (by simp [samePlanWeek])]
            simp
          · rw [filter_updateFirst_of_other
                (fun x hx => samePlanWeek_other hsame hx),
              List.filter_cons_of_neg
                (by simp only [Bool.not_eq_true]
                    exact (samePlanWeek_other hsame (by simp [samePlanWeek])).1)]
            simpa using hinv u' w'
      | none =>
        unfold activeFor
        rw [gen_plans_fresh hc hfind, List.filter_append]
        by_cases hsame : u' = u ∧ w' = get_week_start today
        · rw [hsame.1, hsame.2]
          rw [filter_eq_nil_of_find?_eq_none hfind,
            List.filter_cons_of_pos (by simp [samePlanWeek])]
          simp
        · rw [List.filter_cons_of_neg
              (by simp only [Bool.not_eq_true]
                  exact (samePlanWeek_other hsame (by simp [samePlanWeek])).1)]
          simpa using hinv u' w'
  · intro db u today llm llm₂ c hc hinv
    obtain ⟨P1, hP1, hact1, huser1, hweek1, -, -, -, -⟩ :=
      @force_step db u today llm c hc (hinv u (get_week_start today))
    have hc2 : activeCommitment (generate_weekly_plan db u true today llm).2 u
        = some c := by
      unfold activeCommitment
      rw [gen_commitments]
      exact hc
    have hfind2 : (generate_weekly_plan db u true today llm).2.plans.find?
        (samePlanWeek u (get_week_start today)) = some P1 :=
      find?_eq_some_of_filter_singleton hP1
    have hlen2 : (activeFor u (get_week_start today)
        (generate_weekly_plan db u true today llm).2.plans).length ≤ 1 := by
      rw [hP1]; norm_num
    obtain ⟨P2, hP2, -, -, -, -, -, hver2, -⟩ :=
      @force_step _ u today llm₂ c hc2 hlen2
    exact ⟨P1, P2, hP1, hP2, hver2 P1 hfind2⟩

/-- Witness for C1 at a concrete store: user 1 has an active version-1 plan
for the current week; two forced regenerations leave exactly one plan of that
week active, its version one higher than after the first call. -/
theorem C1_plan_activity_per_week_witness :
    ∃ P1 P2,
      activeFor 1 (get_week_start 0)
        (generate_weekly_plan c1DB 1 true 0 none).2.plans = [P1] ∧
      activeFor 1 (get_week_start 0)
        (generate_weekly_plan (generate_weekly_plan c1DB 1 true 0 none).2
          1 true 0 none).2.plans = [P2] ∧
      P2.version = P1.version + 1 :=
  C1_plan_activity_per_week.2.2 c1DB 1 0 none none
    { id := 1, user_id := 1, goal := "learn", target_date := 70, weekly_hours := 10 }
    rfl
    (fun u' w' => le_trans (List.length_filter_le _ _) (by norm_num [c1DB]))

/-! ## C7 — memory-rule reinforcement keeps the confidence bound -/

/-- C7: memory rules are created active and no code path ever deactivates one,
so in every reachable store all rules are active and the source's
`(user_id, rule_type)` lookup (which does not re-check `is_active`) finds a
rule iff an active rule with that key exists (first conjunct). Reinforcing an
existing rule rewrites exactly that row's confidence to
`min 1 (confidence + 0.1)` — id, rule_value and activity untouched; when no
rule exists a fresh one is inserted with confidence 0.5 and the supplied
rule_value; every sequence of reinforcement calls preserves `confidence ≤ 1`;
and five reinforcements of a confidence-0.5 rule end at exactly 1
(floats modelled as exact rationals). -/
theorem C7_rule_reinforcement :
    (∀ (db : DB) (u : ℕ) (rt : String),
      (∀ r ∈ db.rules, r.is_active = true) →
      ((∃ r ∈ db.rules, r.user_id = u ∧ r.rule_type = rt ∧ r.is_active = true) ↔
        (db.rules.find? (fun r => r.user_id == u && r.rule_type == rt)).isSome)) ∧
    (∀ (db : DB) (u : ℕ) (rt rv : String) (r0 : MemoryRule),
      db.rules.find? (fun r => r.user_id == u && r.rule_type == rt) = some r0 →
      ∃ l1 l2, db.rules = l1 ++ r0 :: l2 ∧
        (add_or_update_rule db u rt rv).rules =
          l1 ++ { r0 with confidence := min 1 (r0.confidence + 1/10) } :: l2) ∧
    (∀ (db : DB) (u : ℕ) (rt rv : String),
      db.rules.find? (fun r => r.user_id == u && r.rule_type == rt) = none →
      (add_or_update_rule db u rt rv).rules =
        db.rules ++ [{ id := db.nextRuleId, user_id := u, rule_type := rt,
                       rule_value := rv, confidence := 1/2, is_active := true }]) ∧
    (∀ (db : DB) (calls : List (ℕ × String × String)),
      (∀ r ∈ db.rules, r.confidence ≤ 1) →
      ∀ r ∈ (applyRuleCalls db calls).rules, r.confidence ≤ 1) ∧
    (reinforceNTimes c7DB 1 "task_skip" "unused" 5).rules.map MemoryRule.confidence
      = [1] := by
  refine ⟨?_, ?_, ?_, ?_, ?_⟩
  · intro db u rt hact
    constructor
    · rintro ⟨r, hr, hu, ht, -⟩
      rw [List.find?_isSome]
      exact ⟨r, hr, by simp [hu, ht]⟩
    · intro hs
      rw [List.find?_isSome] at hs
      obtain ⟨r, hr, hp⟩ := hs
      simp only [Bool.and_eq_true, beq_iff_eq] at hp
      exact ⟨r, hr, hp.1, hp.2, hact r hr⟩
  · intro db u rt rv r0 h
    obtain ⟨l1, l2, hl, -, hupd⟩ :=
      find?_updateFirst_decomp
        (fun r => { r with confidence := min 1 (r.confidence + 1/10) }) h
    refine ⟨l1, l2, hl, ?_⟩
    unfold add_or_update_rule
    rw [h]
    exact hupd
  · intro db u rt rv h
    unfold add_or_update_rule
    rw [h]
  · intro db calls
    induction calls generalizing db with
    | nil => intro h r hr; exact h r hr
    | cons c cs ih =>
      intro h
      apply ih
      intro r hr
      unfold add_or_update_rule at hr
      cases hfind : db.rules.find? (fun r => r.user_id == c.1 && r.rule_type == c.2.1) with
      | some r0 =>
        rw [hfind] at hr
        dsimp only at hr
        rcases mem_updateFirst hr with hmem | ⟨y, hy, rfl⟩
        · exact h r hmem
        · exact min_le_left _ _
      | none =>
        rw [hfind] at hr
        dsimp only at hr
        rcases List.mem_append.mp hr with hmem | hnew
        · exact h r hmem
        · rw [List.mem_singleton.mp hnew]
          norm_num
  · norm_num [reinforceNTimes, add_or_update_rule, c7DB, updateFirst,
      List.find?, min_def]

/-- Witness for C7: reinforcing on an empty store inserts a fresh rule with
confidence 0.5 and the supplied value. -/
theorem C7_rule_reinforcement_witness :
    (add_or_update_rule {} 1 "task_skip" "User skipped learning session").rules =
      [{ id := 1, user_id := 1, rule_type := "task_skip",
         rule_value := "User skipped learning session", confidence := 1/2,
         is_active := true }] :=
  C7_rule_reinforcement.2.2.1 {} 1 "task_skip" "User skipped learning session" rfl

/-! ## C9 — daily-task materialization and the week window -/

/-- C9 counterexample: in the scenario "commitment created, premortem
submitted, weekly plan requested", with the content generator tagging its one
task `day = 10`, the materialized DailyTask lands on `weekStart + 9 = 9`,
outside `[weekStart, weekStart + 6] = [0, 6]`: the source clamps the day
offset from below at 0 but not from above. -/
theorem C9_task_date_outside_week_counterexample :
    c9Final.tasks.map DailyTask.date = [9] ∧ get_week_start 0 = 0 ∧
    ¬ ((9 : ℤ) ≤ get_week_start 0 + 6) :=
  ⟨rfl, rfl, by norm_num [get_week_start]⟩

/-- C9 amended: every DailyTask materialized from a plan's task list has
initial status `pending`, date `= week_start + max 0 (day - 1)` for its task
entry (so never before `week_start`), and task type obtained from the type
string with unknown or invalid strings defaulting to `reading`; the dates all
fall within `[weekStart, weekStart + 6]` PROVIDED every task entry's day is at
most 7 — the source does not clamp the offset from above, so a larger day
escapes the week. -/
theorem C9_daily_task_fields :
    (∀ (plan_id nid : ℕ) (ws : ℤ) (tds : List TaskData),
      ∀ t ∈ create_daily_tasks plan_id nid ws tds,
        t.status = TaskStatus.pending ∧ ws ≤ t.date ∧
        ∃ td ∈ tds, t.date = ws + max 0 (td.day.getD 1 - 1) ∧
          t.task_type = (TaskType.ofString? (td.ttype.getD "reading")).getD .reading) ∧
    (∀ s : String, s ≠ "reading" → s ≠ "coding" → s ≠ "review" → s ≠ "quiz" →
      (TaskType.ofString? s).getD .reading = TaskType.reading) ∧
    (∀ (plan_id nid : ℕ) (ws : ℤ) (tds : List TaskData),
      (∀ td ∈ tds, td.day.getD 1 ≤ 7) →
      ∀ t ∈ create_daily_tasks plan_id nid ws tds,
        ws ≤ t.date ∧ t.date ≤ ws + 6) := by
  refine ⟨?_, ?_, ?_⟩
  · intro plan_id nid ws tds
    induction tds generalizing nid with
    | nil => intro t ht; simp [create_daily_tasks] at ht
    | cons td rest ih =>
      intro t ht
      rw [create_daily_tasks] at ht
      rcases List.mem_cons.mp ht with rfl | ht
      · exact ⟨rfl, le_add_of_nonneg_right (le_max_left 0 _),
          td, List.mem_cons_self _ _, rfl, rfl⟩
      · obtain ⟨h1, h2, td', htd', h3⟩ := ih (nid + 1) t ht
        exact ⟨h1, h2, td', List.mem_cons_of_mem _ htd', h3⟩
  · intro s h1 h2 h3 h4
    simp [TaskType.ofString?, h1, h2, h3, h4]
  · intro plan_id nid ws tds hdays
    induction tds generalizing nid with
    | nil => intro t ht; simp [create_daily_tasks] at ht
    | cons td rest ih =>
      intro t ht
      rw [create_daily_tasks] at ht
      rcases List.mem_cons.mp ht with rfl | ht
      · refine ⟨le_add_of_nonneg_right (le_max_left 0 _), ?_⟩
        have hd : td.day.getD 1 ≤ 7 := hdays td (List.mem_cons_self _ _)
        have : max 0 (td.day.getD 1 - 1) ≤ 6 :=
          max_le (by norm_num) (by omega)
        simpa using add_le_add_left this ws
      · exact ih (nid + 1) (fun td' htd' => hdays td' (List.mem_cons_of_mem _ htd'))
          t ht

/-- Witness for C9: a single task entry with unknown type string "go" and
day 3 materializes as a pending reading task dated `weekStart + 2`, inside
the week window. -/
theorem C9_daily_task_fields_witness :
    c9WitnessTask.status = TaskStatus.pending ∧
    (0 : ℤ) ≤ c9WitnessTask.date ∧ c9WitnessTask.date ≤ 0 + 6 ∧
    (TaskType.ofString? "go").getD .reading = TaskType.reading := by
  have hmem : c9WitnessTask ∈ create_daily_tasks 1 1 0 [c9WitnessEntry] := by decide
  have hdays : ∀ td ∈ [c9WitnessEntry], td.day.getD 1 ≤ 7 := by decide
  obtain ⟨hlo, hhi⟩ := C9_daily_task_fields.2.2 1 1 0 _ hdays _ hmem
  refine ⟨rfl, hlo, hhi, ?_⟩
  exact C9_daily_task_fields.2.1 "go" (by decide) (by decide) (by decide) (by decide)

/-! ## C10 — complete-task ignores the calling user -/

/-- C10: for every task id the `complete-task` state change and response are
identical for any two callers (the handler never consults the caller id); when
the task exists — regardless of its current status, including `completed` or
`skipped`, and regardless of which user's plan owns it — the call succeeds,
transitions exactly that row to `completed`, and overwrites `completed_at`
with the fresh timestamp. -/
theorem C10_complete_task_user_independent :
    (∀ (db : DB) (task_id u₁ u₂ : ℕ) (now : ℤ),
      complete_task db task_id u₁ now = complete_task db task_id u₂ now) ∧
    (∀ (db : DB) (task_id u : ℕ) (now : ℤ) (t0 : DailyTask),
      db.tasks.find? (fun t => t.id == task_id) = some t0 →
      ∃ l1 l2, db.tasks = l1 ++ t0 :: l2 ∧
        complete_task db task_id u now =
          Except.ok ({ message := "Task completed", task_id := task_id },
            { db with tasks :=
                l1 ++ { t0 with status := .completed, completed_at := some now } :: l2 })) := by
  constructor
  · intro db task_id u₁ u₂ now
    rfl
  · intro db task_id u now t0 h
    obtain ⟨l1, l2, hl, -, hupd⟩ :=
      find?_updateFirst_decomp
        (fun t => { t with status := .completed, completed_at := some now }) h
    refine ⟨l1, l2, hl, ?_⟩
    unfold complete_task
    rw [h, hupd]

/-- Witness for C10: caller 2 completes task 5, which belongs to user 1's plan
and was already completed at time 3; the call succeeds and re-stamps
`completed_at` to 7. -/
theorem C10_complete_task_user_independent_witness :
    complete_task c10DB 5 1 7 = complete_task c10DB 5 2 7 ∧
    ∃ l1 l2,
      c10DB.tasks =
        l1 ++ ({ id := 5, plan_id := 1, date := 0, task := "Read", timebox_min := 45,
                 status := .completed, completed_at := some 3 } : DailyTask) :: l2 ∧
      complete_task c10DB 5 2 7 =
        Except.ok ({ message := "Task completed", task_id := 5 },
          { c10DB with
              tasks := l1 ++ ({ id := 5, plan_id := 1, date := 0, task := "Read",
                                timebox_min := 45, status := .completed,
                                completed_at := some 7 } : DailyTask) :: l2 }) := by
  constructor
  · exact C10_complete_task_user_independent.1 c10DB 5 1 2 7
  · obtain ⟨l1, l2, hl, hres⟩ :=
      C10_complete_task_user_independent.2 c10DB 5 2 7
        { id := 5, plan_id := 1, date := 0, task := "Read", timebox_min := 45,
          status := .completed, completed_at := some 3 } rfl
    exact ⟨l1, l2, hl, hres⟩

end Coach
